import Mathlib

/-!
Verification of the data-cleaning engine of the web-scraper dataset builder.

The development shallowly embeds the cleaning core of the repository:

* `Cell` / `Df` model the pandas DataFrame values the cleaner manipulates
  (`src/cleaner.py`, `src/models.py`).  A `Df` is a columnar table: column
  names, per-column pandas dtype strings, and a list of rows.  Machine
  floating point (`float64`) is idealized as exact rationals `ℚ`; character
  classes of Python regexes (`\w`, `\s`, `\d`) are modelled over their ASCII
  parts, which covers every value exercised here.
* `CleaningOperation` and `CleaningHistory` are the dataclasses of
  `src/models.py` (the `timestamp` field, wall-clock time, is omitted).
  The Python class body of `CleaningHistory` defines `can_undo`, `can_redo`
  and `get_current_data` twice; by Python name resolution the later
  definitions (models.py lines 541-553) are the effective ones, and those are
  the ones embedded here.  The statements of `get_operation_summary` after
  its `return` (models.py lines 531-539) are unreachable and not embedded.
* `DataCleaner` embeds the session class of `src/cleaner.py`.  Each cleaning
  method returns `Option String × DataCleaner`: `some msg` is the
  `ValueError`/exception the Python method raises (re-raised after the
  error-handler hook), paired with the state of the session object at the
  moment the exception escapes.  Logging and the error-handler collaborator
  only produce log output and are not modelled.
-/

/-- Scalar value stored in one DataFrame cell.  `null` stands for
NaN/None/NaT/pd.NA, `num` for the numeric dtypes (float64 idealized as ℚ),
`str` for Python strings (as char lists), `date` for datetime64 values and
`boolC` for the nullable boolean dtype. -/
inductive Cell where
  | null : Cell
  | num (q : ℚ) : Cell
  | str (s : List Char) : Cell
  | date (y m d : Nat) : Cell
  | boolC (b : Bool) : Cell
deriving DecidableEq, Repr

abbrev Row := List Cell

/-- Columnar table modelling a pandas DataFrame: column names, the pandas
dtype string of each column (paired by position), and the rows. -/
structure Df where
  colNames : List String
  dtypes : List String
  rows : List Row
deriving DecidableEq, Repr

/-- Empty frame, `pd.DataFrame()`. -/
def Df.empty : Df := { colNames := [], dtypes := [], rows := [] }

/-- Position of a column name, `df.columns.get_loc`-style lookup. -/
def Df.colIdx (df : Df) (c : String) : Option Nat :=
  df.colNames.indexOf? c

/-- Membership test `c in df.columns`. -/
def Df.hasCol (df : Df) (c : String) : Bool :=
  df.colNames.contains c

/-- Cell of a row at a column position (a well-formed frame always has the
position in range; out-of-range reads default to null). -/
def Row.cellAt (r : Row) (i : Nat) : Cell :=
  r.getD i Cell.null

/-- Dtype string of a column position. -/
def Df.dtypeAt (df : Df) (i : Nat) : String :=
  df.dtypes.getD i ("object")

/-- CleaningOperation dataclass of src/models.py (timestamp omitted:
wall-clock time).  Parameters are kept as printable key/value pairs. -/
structure CleaningOperation where
  operation_type : String
  parameters : List (String × String)
  target_columns : List String
  description : String
  applied : Bool
  records_affected : Int
deriving DecidableEq, Repr

/-- CleaningHistory dataclass of src/models.py.  `current_index` is a Python
int that is nonnegative in every state the cleaner constructs (`undo` is
guarded by `can_undo`, eviction only runs right after an append), so it is
represented as `Nat`. -/
structure CleaningHistory where
  operations : List CleaningOperation
  data_snapshots : List Df
  current_index : Nat
  max_snapshots : Nat
deriving DecidableEq, Repr

/-- Fresh history, `CleaningHistory()` with its dataclass defaults. -/
def CleaningHistory.new : CleaningHistory :=
  { operations := [], data_snapshots := [], current_index := 0, max_snapshots := 20 }

/-- CleaningHistory.add_operation (models.py lines 484-500).  Note the
source truncates `operations` to `current_index` but `data_snapshots` to
`current_index + 1`, and evicts when `len(data_snapshots)` exceeds
`max_snapshots`.  `list.pop(0)` is `List.drop 1`; `data_snapshot.copy()` is
the identity on the value level. -/
def CleaningHistory.add_operation (h : CleaningHistory) (operation : CleaningOperation)
    (data_snapshot : Df) : CleaningHistory :=
  let h1 :=
    if h.current_index < h.operations.length then
      { h with operations := h.operations.take h.current_index,
               data_snapshots := h.data_snapshots.take (h.current_index + 1) }
    else h
  let ops := h1.operations ++ [operation]
  let snaps := h1.data_snapshots ++ [data_snapshot]
  if snaps.length > h1.max_snapshots then
    { h1 with operations := ops.drop 1, data_snapshots := snaps.drop 1,
              current_index := ops.length - 1 }
  else
    { h1 with operations := ops, data_snapshots := snaps, current_index := ops.length }

/-- CleaningHistory.can_undo (models.py lines 541-543). -/
def CleaningHistory.can_undo (h : CleaningHistory) : Bool :=
  decide (h.current_index > 0)

/-- CleaningHistory.can_redo (models.py lines 545-547). -/
def CleaningHistory.can_redo (h : CleaningHistory) : Bool :=
  decide (h.current_index < h.operations.length)

/-- CleaningHistory.get_current_data: the effective (second) definition,
models.py lines 549-553.  Returns `data_snapshots[current_index]` when the
index is in range and an empty DataFrame otherwise. -/
def CleaningHistory.get_current_data (h : CleaningHistory) : Df :=
  match h.data_snapshots.get? h.current_index with
  | some d => d
  | none => Df.empty

/-!
Character-level embedding of the Python regex operations used by
`DataCleaner.clean_text` (cleaner.py lines 186-240).  `\s` is modelled by
its ASCII members (space, tab, newline, carriage return, vertical tab, form
feed), `\w` by `[A-Za-z0-9_]` and `\d` by `[0-9]`.
-/

/-- Membership in the `\s` character class (ASCII part). -/
def isWS (c : Char) : Bool :=
  c = ' ' || c = '\t' || c = '\n' || c = '\r' || c = Char.ofNat 11 || c = Char.ofNat 12

/-- Membership in the `\w` character class (ASCII part). -/
def isWordChar (c : Char) : Bool :=
  c.isAlphanum || c = '_'

/-- Replacement of every maximal whitespace run by a single space,
`str.replace(r'\s+', ' ', regex=True)`: a whitespace character merges into
the space produced by the rest of its run, the first character of a run
becomes one space. -/
def collapseWS : List Char → List Char
  | [] => []
  | c :: cs =>
    let r := collapseWS cs
    if isWS c then
      match r with
      | ' ' :: _ => r
      | _ => ' ' :: r
    else c :: r

/-- Python `str.strip()`: drop whitespace from both ends. -/
def stripWS (l : List Char) : List Char :=
  ((l.dropWhile isWS).reverse.dropWhile isWS).reverse

/-- Composition applied by `remove_extra_spaces` and by the fixed trailing
cleanup pass of `clean_text`: collapse whitespace runs, then strip. -/
def collapseTrim (l : List Char) : List Char :=
  stripWS (collapseWS l)

/-- Python `str.title()`: uppercase every letter that follows a non-letter,
lowercase the other letters.  The Bool accumulator records whether the
previous character was a letter. -/
def titleCaseAux : Bool → List Char → List Char
  | _, [] => []
  | prevAlpha, c :: cs =>
    if c.isAlpha then
      (if prevAlpha then c.toLower else c.toUpper) :: titleCaseAux true cs
    else
      c :: titleCaseAux false cs

/-- Removal of HTML-tag-like substrings, `str.replace(r'<[^>]+>', '',
regex=True)`: a `<` followed by at least one non-`>` character and then a
`>` is deleted (the character class cannot cross a `>`, so each match runs
to the first `>`); a `<` with no such match is kept. -/
def removeHtmlTags : List Char → List Char
  | [] => []
  | c :: cs =>
    if c = '<' then
      let mid := cs.takeWhile (fun d => d ≠ '>')
      let rest := cs.dropWhile (fun d => d ≠ '>')
      if mid.length > 0 && rest.length > 0 then
        removeHtmlTags (rest.drop 1)
      else
        c :: removeHtmlTags cs
    else c :: removeHtmlTags cs
termination_by l => l.length
decreasing_by
  · simp only [List.length_cons]
    have h1 : (cs.dropWhile (fun d => d ≠ '>')).length ≤ cs.length :=
      (cs.dropWhile_sublist (fun d => d ≠ '>')).length_le
    have h2 : ((cs.dropWhile (fun d => d ≠ '>')).drop 1).length ≤
        (cs.dropWhile (fun d => d ≠ '>')).length := (List.drop_sublist 1 _).length_le
    omega
  · simp
  · simp

/-- Single text operation of `clean_text`, dispatched on the operation name
exactly as the source's if/elif chain; an unknown name only logs a warning
and leaves the value unchanged. -/
def applyTextOp (s : List Char) (operation : String) : List Char :=
  if operation = "remove_special_chars" then
    s.filter (fun c => isWordChar c || isWS c)
  else if operation = "remove_extra_spaces" then
    collapseTrim s
  else if operation = "lowercase" then
    s.map Char.toLower
  else if operation = "uppercase" then
    s.map Char.toUpper
  else if operation = "title_case" then
    titleCaseAux false s
  else if operation = "remove_numbers" then
    s.filter (fun c => !c.isDigit)
  else if operation = "remove_html_tags" then
    removeHtmlTags s
  else if operation = "normalize_whitespace" then
    collapseTrim (s.map (fun c => if c = '\n' || c = '\r' || c = '\t' then ' ' else c))
  else s

/-- Operation names after which `clean_text` always re-applies the
whitespace cleanup (cleaner.py line 234). -/
def removalOps : List String :=
  ["remove_special_chars", "remove_numbers", "remove_html_tags"]

/-- Effect of one `clean_text` call on one string cell: the requested
operations in order, then — whenever the request contains any
character-removal operation — the fixed collapse-and-strip cleanup
(cleaner.py lines 233-236). -/
def cleanTextCell (operations : List String) (s : List Char) : List Char :=
  let r := operations.foldl applyTextOp s
  if removalOps.any (fun op => operations.contains op) then collapseTrim r else r

/-!
Parsing and rendering helpers shared by the transform library: decimal
parsing for `pd.to_numeric(errors='coerce')`, date parsing for
`pd.to_datetime(errors='coerce')` (best-effort inference restricted to the
ISO `YYYY-MM-DD` shape, the only shape exercised here), and the `str()`
rendering pandas applies in `astype(str)`.
-/

/-- Value of a nonempty all-digit run. -/
def parseNatDigits (l : List Char) : Option Nat :=
  if l.length > 0 && l.all Char.isDigit then
    some (l.foldl (fun acc c => acc * 10 + (c.toNat - 48)) 0)
  else none

/-- Decimal number parsing as done by `pd.to_numeric(errors='coerce')` on a
string: optional sign, integer digits, optional fractional digits
(surrounding whitespace stripped; scientific notation, not exercised by the
repository, is not modelled). -/
def parseRatChars (s : List Char) : Option ℚ :=
  let t := stripWS s
  let (sign, t) : ℚ × List Char :=
    match t with
    | '-' :: rest => (-1, rest)
    | '+' :: rest => (1, rest)
    | _ => (1, t)
  let intPart := t.takeWhile Char.isDigit
  let rest := t.dropWhile Char.isDigit
  match rest with
  | [] =>
    (parseNatDigits intPart).map (fun n => sign * (n : ℚ))
  | '.' :: frac =>
    if intPart.length > 0 && frac.all Char.isDigit then
      some (sign * ((parseNatDigits intPart).getD 0 +
        (frac.foldl (fun acc c => acc * 10 + (c.toNat - 48)) 0 : ℚ) / (10 ^ frac.length : ℚ)))
    else none
  | _ => none

/-- Date parsing for `pd.to_datetime(errors='coerce')`, restricted to the
ISO `YYYY-MM-DD` shape with plausibility bounds on month and day. -/
def parseDateChars (s : List Char) : Option (Nat × Nat × Nat) :=
  let t := stripWS s
  let y := t.takeWhile Char.isDigit
  match t.dropWhile Char.isDigit with
  | '-' :: rest1 =>
    let m := rest1.takeWhile Char.isDigit
    match rest1.dropWhile Char.isDigit with
    | '-' :: rest2 =>
      if rest2.length > 0 && rest2.all Char.isDigit then
        match parseNatDigits y, parseNatDigits m, parseNatDigits rest2 with
        | some yv, some mv, some dv =>
          if 1 ≤ mv && mv ≤ 12 && 1 ≤ dv && dv ≤ 31 then some (yv, mv, dv) else none
        | _, _, _ => none
      else none
    | _ => none
  | _ => none

/-- Digits of a natural number. -/
def natDigits (n : Nat) : List Char :=
  (toString n).toList

/-- Zero-padded two-digit rendering used for month and day fields. -/
def pad2 (n : Nat) : List Char :=
  if n < 10 then '0' :: natDigits n else natDigits n

/-- Rendering of an integer. -/
def intChars (i : Int) : List Char :=
  (toString i).toList

/-- Python `str()` of one cell as pandas produces it in `astype(str)`; the
dtype decides the numeric rendering (`int64` values print without a decimal
point, `float64` values with one).  Rendering of non-integral rationals is
kept abstract as numerator/denominator digits; no verified property depends
on it. -/
def pyStrOfCell (dtype : String) (c : Cell) : List Char :=
  match c with
  | Cell.null => ['n', 'a', 'n']
  | Cell.num q =>
    if dtype = "int64" || dtype = "Int64" then intChars q.num
    else if q.den = 1 then intChars q.num ++ ['.', '0']
    else intChars q.num ++ ['/'] ++ natDigits q.den
  | Cell.str s => s
  | Cell.date y m d => natDigits y ++ ['-'] ++ pad2 m ++ ['-'] ++ pad2 d
  | Cell.boolC b => if b then ['T', 'r', 'u', 'e'] else ['F', 'a', 'l', 's', 'e']

/-- Replacement of every non-overlapping occurrence of a nonempty literal
pattern, scanning left to right: Python `str.replace(pat, repl)` (and the
regex replace calls of the source whose pattern is a literal). -/
def replaceSub (pat repl : List Char) : List Char → List Char
  | [] => []
  | c :: cs =>
    if pat.length = 0 then c :: cs
    else if pat.isPrefixOf (c :: cs) then
      repl ++ replaceSub pat repl ((c :: cs).drop pat.length)
    else
      c :: replaceSub pat repl cs
termination_by l => l.length
decreasing_by
  · simp only [List.length_drop, List.length_cons]
    omega
  · simp

/-!
Column-level statistics and fill strategies backing
`DataCleaner.handle_missing_values` (cleaner.py lines 89-184).
-/

/-- Sorted insertion, ascending. -/
def insertQ (x : ℚ) : List ℚ → List ℚ
  | [] => [x]
  | y :: ys => if x ≤ y then x :: y :: ys else y :: insertQ x ys

/-- Ascending sort of rational values (the order of equal elements is
irrelevant to every use below). -/
def sortQ (l : List ℚ) : List ℚ := l.foldr insertQ []

/-- Numeric values of a column, skipping nulls as pandas reductions do. -/
def colNums (cells : List Cell) : List ℚ :=
  cells.filterMap (fun c => match c with | Cell.num q => some q | _ => none)

/-- Series.mean(): arithmetic mean over the non-null values, none when the
column has no numeric values (pandas NaN). -/
def meanQ (l : List ℚ) : Option ℚ :=
  if l.length = 0 then none else some (l.sum / (l.length : ℚ))

/-- Series.median(): middle of the sorted non-null values, averaging the two
middle elements for an even count. -/
def medianQ (l : List ℚ) : Option ℚ :=
  let s := sortQ l
  let n := s.length
  if n = 0 then none
  else if n % 2 = 1 then some (s.getD (n / 2) 0)
  else some ((s.getD (n / 2 - 1) 0 + s.getD (n / 2) 0) / 2)

/-- Series.quantile(p) with pandas' linear interpolation between the order
statistics; none on an all-null column. -/
def quantileQ (l : List ℚ) (p : ℚ) : Option ℚ :=
  let s := sortQ l
  let n := s.length
  if n = 0 then none
  else
    let h : ℚ := ((n : ℚ) - 1) * p
    let i : Nat := h.floor.toNat
    let g : ℚ := h - (i : ℚ)
    if i + 1 < n then some (s.getD i 0 + g * (s.getD (i + 1) 0 - s.getD i 0))
    else some (s.getD (n - 1) 0)

/-- Lexicographic comparison of char lists (Python string `<=`). -/
def charListLe : List Char → List Char → Bool
  | [], _ => true
  | _ :: _, [] => false
  | a :: as, b :: bs =>
    if a = b then charListLe as bs else decide (a ≤ b)

/-- Ordering rank used to compare cells of distinct shapes (mixed-shape
columns do not occur in the data the repository feeds to `mode`). -/
def cellRank : Cell → Nat
  | Cell.num _ => 0
  | Cell.str _ => 1
  | Cell.date _ _ _ => 2
  | Cell.boolC _ => 3
  | Cell.null => 4

/-- Value order used by Series.mode(), which returns the most frequent
values sorted ascending. -/
def cellLe (a b : Cell) : Bool :=
  match a, b with
  | Cell.num x, Cell.num y => decide (x ≤ y)
  | Cell.str x, Cell.str y => charListLe x y
  | Cell.date y1 m1 d1, Cell.date y2 m2 d2 =>
    decide ((y1, m1, d1) ≤ (y2, m2, d2))
  | Cell.boolC x, Cell.boolC y => !x || y
  | x, y => decide (cellRank x ≤ cellRank y)

/-- Series.mode()[0]: the smallest among the non-null values of maximal
multiplicity; none when the column has no non-null value (`mode()` empty,
in which case the source skips the fill). -/
def modeCell (cells : List Cell) : Option Cell :=
  let vals := cells.filter (fun c => c ≠ Cell.null)
  let cands := vals.filter (fun c => vals.count c = (vals.map vals.count).foldr max 0)
  cands.foldr (fun c acc =>
    match acc with
    | none => some c
    | some b => if cellLe c b then some c else some b) none

/-- Forward fill of one column: each null takes the nearest preceding
non-null value; leading nulls stay null.  The accumulator is the last
non-null value seen. -/
def ffillColAux : Option Cell → List Cell → List Cell
  | _, [] => []
  | last, Cell.null :: cs => (last.getD Cell.null) :: ffillColAux last cs
  | _, c :: cs => c :: ffillColAux (some c) cs

/-- Series.fillna(method='ffill') on one column. -/
def ffillCol (cells : List Cell) : List Cell := ffillColAux none cells

/-- Series.fillna(method='bfill') on one column. -/
def bfillCol (cells : List Cell) : List Cell := (ffillColAux none cells.reverse).reverse

/-- Linear interpolation values for a run of k nulls between value a and the
next value (index i counts from 0); with no following value the last value
is propagated, matching Series.interpolate()'s forward default. -/
def interpVal (a : ℚ) (next : Option ℚ) (k i : Nat) : Cell :=
  match next with
  | some b => Cell.num (a + (b - a) * ((i : ℚ) + 1) / ((k : ℚ) + 1))
  | none => Cell.num a

/-- Series.interpolate() (method='linear', indices equally spaced): nulls
between two numeric values are filled linearly, trailing nulls repeat the
last value, leading nulls stay null.  The accumulator is the previous
numeric value.  Cells that are neither null nor numeric cannot occur in the
numeric-dtype columns this is applied to; they are kept and reset the
accumulator. -/
def interpGo : Option ℚ → List Cell → List Cell
  | _, [] => []
  | prev, Cell.null :: cs =>
    let run := (Cell.null :: cs).takeWhile (fun c => c = Cell.null)
    let rest := (Cell.null :: cs).dropWhile (fun c => c = Cell.null)
    match prev with
    | none => run ++ interpGo none rest
    | some a =>
      let next : Option ℚ := match rest with | Cell.num b :: _ => some b | _ => none
      ((List.range run.length).map (interpVal a next run.length)) ++ interpGo prev rest
  | _, Cell.num q :: cs => Cell.num q :: interpGo (some q) cs
  | _, c :: cs => c :: interpGo none cs
termination_by _ l => l.length
decreasing_by
  all_goals simp_all
  all_goals
    have : ((cs.dropWhile fun c => c = Cell.null)).length ≤ cs.length :=
      (cs.dropWhile_sublist _).length_le
  all_goals omega

/-- Series.interpolate() on one column. -/
def interpCol (cells : List Cell) : List Cell := interpGo none cells

/-!
K-nearest-neighbour imputation (`KNNImputer(n_neighbors=5)`, cleaner.py
lines 150-154) over the numeric sub-table, with sklearn's nan-euclidean
squared distance; neighbour ties are resolved by row order (sklearn leaves
the order among equal distances unspecified). -/

/-- Nan-euclidean squared distance between two numeric rows: the sum of
squared differences over the coordinates present in both, scaled by
(total coordinates / common coordinates); none when no coordinate is shared. -/
def nanEuclidSq (r1 r2 : List (Option ℚ)) : Option ℚ :=
  let pairs := (r1.zip r2).filterMap (fun p =>
    match p with
    | (some a, some b) => some (a - b)
    | _ => none)
  if pairs.length = 0 then none
  else some (((r1.length : ℚ) / (pairs.length : ℚ)) * (pairs.map (fun d => d * d)).sum)

/-- Sorted insertion of (distance, row index) pairs, by distance then row
order. -/
def insertDist (x : ℚ × Nat) : List (ℚ × Nat) → List (ℚ × Nat)
  | [] => [x]
  | y :: ys =>
    if x.1 < y.1 || (x.1 = y.1 && x.2 ≤ y.2) then x :: y :: ys else y :: insertDist x ys

/-- Imputed value for one missing coordinate: uniform mean over the k=5
nearest donor rows that have the coordinate; with no donor the column mean
is used; with an all-missing column the value stays missing. -/
def knnValue (m : List (List (Option ℚ))) (i j : Nat) : Option ℚ :=
  let self := m.getD i []
  let donors := (m.enum.filter (fun rk =>
    rk.1 ≠ i && (rk.2.getD j none).isSome)).filterMap (fun rk =>
      (nanEuclidSq self rk.2).map (fun d => (d, rk.1)))
  let nearest := (donors.foldr insertDist []).take 5
  if nearest.length > 0 then
    meanQ (nearest.filterMap (fun dk => (m.getD dk.2 []).getD j none))
  else
    meanQ (m.filterMap (fun r => r.getD j none))

/-- KNNImputer.fit_transform over the numeric sub-table (rows of optional
rationals). -/
def knnImputeMatrix (m : List (List (Option ℚ))) : List (List (Option ℚ)) :=
  m.enum.map (fun ri =>
    ri.2.enum.map (fun cj =>
      match cj.2 with
      | some v => some v
      | none => knnValue m ri.1 cj.1))

/-!
Row-level operations backing `remove_duplicates` (cleaner.py lines 49-87)
and the `drop` strategy of `handle_missing_values`.
-/

/-- Scan of `drop_duplicates(keep='first')`: a row is kept exactly when its
key has not been seen on an earlier row; `seen` accumulates the keys of the
kept rows (pandas `duplicated(keep='first')` marks precisely the rows whose
key occurred earlier). -/
def dropDupByKeyAux {κ : Type} [DecidableEq κ] (key : Row → κ) (seen : List κ) :
    List Row → List Row
  | [] => []
  | r :: rs =>
    if key r ∈ seen then dropDupByKeyAux key seen rs
    else r :: dropDupByKeyAux key (key r :: seen) rs

/-- Keep-first deduplication by a key, `drop_duplicates(keep='first')`. -/
def dropDupByKey {κ : Type} [DecidableEq κ] (key : Row → κ) (rows : List Row) : List Row :=
  dropDupByKeyAux key [] rows

/-- drop_duplicates(keep='last'): keep the last occurrence of each key, in
row order. -/
def dropDupLastByKey {κ : Type} [DecidableEq κ] (key : Row → κ) (rows : List Row) : List Row :=
  (dropDupByKey key rows.reverse).reverse

/-- drop_duplicates(keep=False): keep only rows whose key is unique. -/
def dropDupAllByKey {κ : Type} [DecidableEq κ] (key : Row → κ) (rows : List Row) : List Row :=
  rows.filter (fun r => (rows.map key).count (key r) = 1)

/-- Projection of a row to the cells of the given column positions, the
comparison key of a subset deduplication. -/
def projRow (idxs : List Nat) (r : Row) : List Cell :=
  idxs.map (fun i => r.cellAt i)

/-- Key function of drop_duplicates: the whole row when no subset is given,
the subset projection otherwise. -/
def dedupKey (df : Df) (subset : Option (List String)) : Row → List Cell :=
  match subset with
  | none => fun r => r
  | some cols => fun r => projRow (cols.filterMap df.colIdx) r

/-- DataFrame.drop_duplicates with the source's three strategies. -/
def dropDuplicatesRows (df : Df) (subset : Option (List String)) (strategy : String) :
    List Row :=
  if strategy = "all" then dropDupAllByKey (dedupKey df subset) df.rows
  else if strategy = "last" then dropDupLastByKey (dedupKey df subset) df.rows
  else dropDupByKey (dedupKey df subset) df.rows

/-- DataFrame.dropna(subset=columns): keep rows with no null in the given
column positions. -/
def dropnaRows (idxs : List Nat) (rows : List Row) : List Row :=
  rows.filter (fun r => idxs.all (fun i => r.cellAt i ≠ Cell.null))

/-- Cells of one column position, in row order. -/
def Df.colCells (df : Df) (i : Nat) : List Cell :=
  df.rows.map (fun r => r.cellAt i)

/-- Replacement of the cells of one column position (row count preserved by
every use). -/
def Df.setColCells (df : Df) (i : Nat) (cells : List Cell) : Df :=
  { df with rows := df.rows.zipWith (fun r c => r.set i c) cells }

/-- Whole-column update: read the column, transform it, write it back. -/
def Df.withColCells (df : Df) (i : Nat) (g : List Cell → List Cell) : Df :=
  df.setColCells i (g (df.colCells i))

/-- Per-cell column update. -/
def Df.mapColCells (df : Df) (i : Nat) (g : Cell → Cell) : Df :=
  df.withColCells i (fun cells => cells.map g)

/-- Dtype update of one column position. -/
def Df.setDtype (df : Df) (i : Nat) (dt : String) : Df :=
  { df with dtypes := df.dtypes.set i dt }

/-- Null count summed over the given column positions,
`df[columns].isnull().sum().sum()`. -/
def Df.nullCountIn (df : Df) (idxs : List Nat) : Nat :=
  (idxs.map (fun i => (df.colCells i).count Cell.null)).sum

/-- Numeric dtypes recognized by the `dtype in ['int64', 'float64']` guards
of the source. -/
def isNumericDtype (dt : String) : Bool :=
  dt = "int64" || dt = "float64"

/-- Text dtypes recognized by `select_dtypes(include=['object', 'string'])`. -/
def isTextDtype (dt : String) : Bool :=
  dt = "object" || dt = "string"

/-!
Cell-level embeddings of the coercions of `convert_data_types` (cleaner.py
lines 262-339) and the format rules of `standardize_formats` (lines
725-802).
-/

/-- pd.to_numeric(errors='coerce') on one value: numbers stay, strings are
parsed decimally, booleans map to 1/0, everything else coerces to null. -/
def toNumericCell : Cell → Cell
  | Cell.num q => Cell.num q
  | Cell.str s => match parseRatChars s with | some q => Cell.num q | none => Cell.null
  | Cell.boolC b => Cell.num (if b then 1 else 0)
  | _ => Cell.null

/-- Dtype pd.to_numeric infers for a converted column: int64 when every
value is an integer and none is null, float64 otherwise. -/
def numericDtypeOf (cells : List Cell) : String :=
  if cells.all (fun c => match c with | Cell.num q => q.den = 1 | _ => false) then "int64"
  else "float64"

/-- pd.to_datetime(errors='coerce') on one value (numeric epoch
interpretation is not modelled; the repository only feeds strings and
dates). -/
def toDatetimeCell : Cell → Cell
  | Cell.str s => match parseDateChars s with
    | some ymd => Cell.date ymd.1 ymd.2.1 ymd.2.2
    | none => Cell.null
  | Cell.date y m d => Cell.date y m d
  | _ => Cell.null

/-- Token map of the boolean conversion (cleaner.py lines 299-302). -/
def boolTokenMap : List (List Char × Bool) :=
  [("true".toList, true), ("false".toList, false), ("yes".toList, true),
   ("no".toList, false), ("1".toList, true), ("0".toList, false),
   ("y".toList, true), ("n".toList, false)]

/-- Boolean conversion of one cell: `astype(str).str.lower().map(bool_map)`
— the string rendering of the cell, lowercased, looked up in the token map;
unmapped tokens become null. -/
def toBooleanCell (dtype : String) (c : Cell) : Cell :=
  let s := (pyStrOfCell dtype c).map Char.toLower
  match boolTokenMap.lookup s with
  | some b => Cell.boolC b
  | none => Cell.null

/-- astype('string') on one cell: nulls stay null, other values take their
string rendering. -/
def toStringCell (dtype : String) (c : Cell) : Cell :=
  match c with
  | Cell.null => Cell.null
  | c => Cell.str (pyStrOfCell dtype c)

/-- Format rules accepted by `standardize_formats`; a missing or unknown
`type` key leaves the column untouched (`other`).  The caller-supplied
regex rule is modelled with a literal pattern, the phone rule with its
default pattern/format pair. -/
inductive FormatRule where
  | phone : FormatRule
  | dateRule : FormatRule
  | currency (doFormat : Bool) (symbol : List Char) : FormatRule
  | email : FormatRule
  | regexLit (pat repl : List Char) : FormatRule
  | other : FormatRule
deriving DecidableEq, Repr

/-- Replacement pass of the default phone pattern
`(\d{3})(\d{3})(\d{4})` → `(\1) \2-\3`: each block of ten consecutive
digits (the input is all digits after the `\D` strip) is grouped. -/
def phoneSub (s : List Char) : List Char :=
  if s.length ≥ 10 then
    ['('] ++ s.take 3 ++ [')', ' '] ++ (s.drop 3).take 3 ++ ['-'] ++ (s.drop 6).take 4 ++
      phoneSub (s.drop 10)
  else s
termination_by s.length
decreasing_by
  simp only [List.length_drop]
  omega

/-- Two-decimal, comma-grouped rendering of `f"{symbol}{x:,.2f}"` (rounding
of the second decimal simplified to half-up; no verified property depends
on it). -/
def currencyRender (symbol : List Char) (q : ℚ) : List Char :=
  let sign : List Char := if q < 0 then ['-'] else []
  let cents : Nat := (Int.natAbs (q * 100 + 1 / 2).floor)
  let whole := cents / 100
  let frac := cents % 100
  let digits := natDigits whole
  let grouped :=
    (((digits.reverse.enum.map (fun p =>
        if p.1 % 3 = 0 && p.1 ≠ 0 then [p.2, ','] else [p.2])).flatten).reverse)
  symbol ++ sign ++ grouped ++ ['.'] ++ pad2 frac

/-- Application of one format rule to one cell (cleaner.py lines 738-778).
Every branch starts from `astype(str)` except the date and currency
parses, exactly as in the source. -/
def applyFormatRule (dtype : String) (rule : FormatRule) (c : Cell) : Cell :=
  match rule with
  | FormatRule.phone =>
    Cell.str (phoneSub ((pyStrOfCell dtype c).filter Char.isDigit))
  | FormatRule.dateRule =>
    match toDatetimeCell c with
    | Cell.date y m d => Cell.str (pyStrOfCell ("object") (Cell.date y m d))
    | _ => Cell.null
  | FormatRule.currency doFormat symbol =>
    let stripped := (pyStrOfCell dtype c).filter (fun ch =>
      !(ch = '$' || ch = ',' || ch = '€' || ch = '£' || ch = '¥'))
    let v := match parseRatChars stripped with
      | some q => Cell.num q
      | none => Cell.null
    if doFormat then
      match v with
      | Cell.num q => Cell.str (currencyRender symbol q)
      | _ => v
    else v
  | FormatRule.email =>
    Cell.str (stripWS ((pyStrOfCell dtype c).map Char.toLower))
  | FormatRule.regexLit pat repl =>
    Cell.str (replaceSub pat repl (pyStrOfCell dtype c))
  | FormatRule.other => c

/-- Column dtype after one format rule (object for the string-producing
branches, float64 for an unformatted currency column). -/
def formatRuleDtype (rule : FormatRule) (dt : String) : String :=
  match rule with
  | FormatRule.phone => "object"
  | FormatRule.dateRule => "object"
  | FormatRule.currency doFormat _ => if doFormat then "object" else "float64"
  | FormatRule.email => "object"
  | FormatRule.regexLit _ _ => "object"
  | FormatRule.other => dt

/-- Mojibake substitution table of `detect_and_fix_encoding_issues`
(cleaner.py lines 821-833).  The Python dict literal lists the en-dash and
em-dash rows under the same key, so the surviving entry maps that key to
the em dash; insertion order is preserved. -/
def encodingMap : List (List Char × List Char) :=
  [("â€™".toList, [Char.ofNat 39]), ("â€œ".toList, "\"".toList), ("â€".toList, "\"".toList),
   ("â€\"".toList, "—".toList), ("Ã¡".toList, "á".toList), ("Ã©".toList, "é".toList),
   ("Ã­".toList, "í".toList), ("Ã³".toList, "ó".toList), ("Ãº".toList, "ú".toList),
   ("Ã±".toList, "ñ".toList)]

/-- Encoding repair of one cell: string rendering, the substitution table in
order, then removal of every character outside the printable ASCII range
`[\x20-\x7E]`. -/
def fixEncodingCell (dtype : String) (c : Cell) : Cell :=
  let s := pyStrOfCell dtype c
  let s := encodingMap.foldl (fun acc pr => replaceSub pr.1 pr.2 acc) s
  Cell.str (s.filter (fun ch => 32 ≤ ch.toNat && ch.toNat ≤ 126))

/-!
The DataCleaner session (src/cleaner.py).  Every method returns
`Option String × DataCleaner`: a raised exception message (if any) together
with the state of the session when the call returns or the exception
escapes.  Descriptions and parameter payloads mirror the source's f-strings
with Lean string appends; quotation marks inside messages are dropped.
-/

structure DataCleaner where
  data : Df
  original_data : Df
  cleaning_history : CleaningHistory
deriving DecidableEq, Repr

/-- Synthetic operation recorded by the constructor (cleaner.py lines
39-47); `applied` and `records_affected` keep their dataclass defaults. -/
def initialStateOp : CleaningOperation :=
  { operation_type := "initial_state", parameters := [], target_columns := [],
    description := "Initial dataset state", applied := false, records_affected := 0 }

/-- DataCleaner.__init__ (cleaner.py lines 27-47): copy the input, keep the
original, create a history and record the initial state with the original
data as first snapshot. -/
def DataCleaner.init (data : Df) : DataCleaner :=
  { data := data, original_data := data,
    cleaning_history := CleaningHistory.new.add_operation initialStateOp data }

/-- Successful epilogue of every transform method: assign the new data and
append the operation record with the new data as snapshot. -/
def DataCleaner.recordOp (c : DataCleaner) (op : CleaningOperation) (d2 : Df) : DataCleaner :=
  { c with data := d2, cleaning_history := c.cleaning_history.add_operation op d2 }

/-- DataCleaner.remove_duplicates (cleaner.py lines 49-87).  The strategy
check is explicit in the source; a subset column absent from the frame makes
`drop_duplicates` itself raise (KeyError), re-raised before any assignment
to `self.data`. -/
def DataCleaner.remove_duplicates (c : DataCleaner) (strategy : String)
    (subset : Option (List String)) : Option String × DataCleaner :=
  let initial_count : Int := c.data.rows.length
  if !(strategy = "first" || strategy = "last" || strategy = "all") then
    (some ("Invalid strategy: " ++ strategy ++ ". Must be first, last, or all"), c)
  else if (subset.getD []).any (fun col => !c.data.hasCol col) then
    (some ("subset column not found"), c)
  else
    let rows2 := dropDuplicatesRows c.data subset strategy
    let d2 := { c.data with rows := rows2 }
    let records : Int := initial_count - rows2.length
    let op : CleaningOperation :=
      { operation_type := "remove_duplicates",
        parameters := [("strategy", strategy), ("subset", toString (subset.getD []))],
        target_columns := (subset.getD c.data.colNames),
        description := "Removed " ++ toString records ++
          " duplicate records using " ++ strategy ++ " strategy",
        applied := true, records_affected := records }
    (none, c.recordOp op d2)

/-- Replacement of the nulls of a column by a constant. -/
def fillNullWith (v : Cell) (cells : List Cell) : List Cell :=
  cells.map (fun c => if c = Cell.null then v else c)

/-- Per-column fill used by the mean/median strategies: numeric-dtype
columns are filled with the given statistic of their non-null values,
other columns are skipped with a warning. -/
def fillNumericStat (stat : List ℚ → Option ℚ) (df : Df) (columns : List String) : Df :=
  columns.foldl (fun d col =>
    match d.colIdx col with
    | some i =>
      if isNumericDtype (d.dtypeAt i) then
        match stat (colNums (d.colCells i)) with
        | some m => d.withColCells i (fillNullWith (Cell.num m))
        | none => d
      else d
    | none => d) df

/-- Data transformation of `handle_missing_values` with the knn strategy
(cleaner.py lines 150-154): impute the numeric sub-table and write it back,
which re-types the touched columns as float64. -/
def knnImputeData (df : Df) (columns : List String) : Df :=
  let idxs := (columns.filter (fun col =>
    match df.colIdx col with
    | some i => isNumericDtype (df.dtypeAt i)
    | none => false)).filterMap df.colIdx
  if idxs.length = 0 then df
  else
    let m := df.rows.map (fun r => idxs.map (fun i =>
      match r.cellAt i with | Cell.num q => some q | _ => none))
    let m2 := knnImputeMatrix m
    let writeBack : Row → List (Option ℚ) → Row := fun r mr =>
      idxs.enum.foldl (fun rr ij =>
        rr.set ij.2 (match mr.getD ij.1 none with
          | some v => Cell.num v
          | none => Cell.null)) r
    let rows2 := df.rows.zipWith writeBack m2
    let dts2 := idxs.foldl (fun ds i => ds.set i ("float64")) df.dtypes
    { df with rows := rows2, dtypes := dts2 }

/-- Strategy dispatch of `handle_missing_values` (cleaner.py lines
108-157): the new frame, or none when the strategy is unknown or the
required fill value is missing (the chain's raising branches). -/
def handleMissingCompute (df : Df) (strategy : String) (cols : List String)
    (idxs : List Nat) (fill_value : Option Cell) : Option Df :=
  if strategy = "drop" then
    some { df with rows := dropnaRows idxs df.rows }
  else if strategy = "fill_mean" then
    some (fillNumericStat meanQ df cols)
  else if strategy = "fill_median" then
    some (fillNumericStat medianQ df cols)
  else if strategy = "fill_mode" then
    some (cols.foldl (fun d col =>
      match d.colIdx col with
      | some i =>
        match modeCell (d.colCells i) with
        | some mv => d.withColCells i (fillNullWith mv)
        | none => d
      | none => d) df)
  else if strategy = "fill_custom" then
    match fill_value with
    | none => none
    | some fv =>
      some (cols.foldl (fun d col =>
        match d.colIdx col with
        | some i => d.withColCells i (fillNullWith fv)
        | none => d) df)
  else if strategy = "forward_fill" then
    some (idxs.foldl (fun d i => d.withColCells i ffillCol) df)
  else if strategy = "backward_fill" then
    some (idxs.foldl (fun d i => d.withColCells i bfillCol) df)
  else if strategy = "interpolate" then
    some (cols.foldl (fun d col =>
      match d.colIdx col with
      | some i =>
        if isNumericDtype (d.dtypeAt i) then d.withColCells i interpCol else d
      | none => d) df)
  else if strategy = "knn_impute" then
    some (knnImputeData df cols)
  else none

/-- DataCleaner.handle_missing_values (cleaner.py lines 89-184). -/
def DataCleaner.handle_missing_values (c : DataCleaner) (strategy : String)
    (columns : Option (List String)) (fill_value : Option Cell) :
    Option String × DataCleaner :=
  let cols := columns.getD c.data.colNames
  let missing := cols.filter (fun col => !c.data.hasCol col)
  if missing.length > 0 then
    (some ("Columns not found: " ++ toString missing), c)
  else
    let idxs := cols.filterMap c.data.colIdx
    let initial_missing : Int := c.data.nullCountIn idxs
    match handleMissingCompute c.data strategy cols idxs fill_value with
    | none =>
      if strategy = "fill_custom" && fill_value.isNone then
        (some ("fill_value must be provided for fill_custom strategy"), c)
      else
        (some ("Unknown strategy: " ++ strategy), c)
    | some d2 =>
      let records : Int := initial_missing - d2.nullCountIn idxs
      let op : CleaningOperation :=
        { operation_type := "handle_missing_values",
          parameters := [("strategy", strategy), ("columns", toString cols)],
          target_columns := cols,
          description := "Handled " ++ toString records ++
            " missing values using " ++ strategy ++ " strategy",
          applied := true, records_affected := records }
      (none, c.recordOp op d2)

/-- One text operation applied to one cell: pandas `.str` operations act on
string elements and turn any non-string element (including null) into NaN. -/
def applyTextOpCell (operation : String) : Cell → Cell
  | Cell.str s => Cell.str (applyTextOp s operation)
  | _ => Cell.null

/-- Fixed trailing whitespace cleanup of `clean_text` applied to one cell. -/
def cleanupWSCell : Cell → Cell
  | Cell.str s => Cell.str (collapseTrim s)
  | _ => Cell.null

/-- Effect of one `clean_text` call on one column: all requested operations
in order (each a whole-column pass), then the fixed cleanup pass when any
character-removal operation was requested (cleaner.py lines 204-236). -/
def cleanTextColumnCells (operations : List String) (cells : List Cell) : List Cell :=
  let cells1 := operations.foldl (fun cs op => cs.map (applyTextOpCell op)) cells
  if removalOps.any (fun op => operations.contains op) then cells1.map cleanupWSCell
  else cells1

/-- Per-column body of the `clean_text` loop (cleaner.py lines 197-240).
A non-object column is first converted with astype(str) (which renders
nulls as the string nan); the per-column change count compares the column
after that conversion with the column after the operations, as the source
snapshots `original_values` after the conversion.  The running pair is
(frame so far, records affected so far). -/
def cleanTextStep (operations : List String) (acc : Df × Int) (col : String) : Df × Int :=
  match (acc.1).colIdx col with
  | some i =>
    let d := acc.1
    let d :=
      if d.dtypeAt i ≠ "object" then
        (d.mapColCells i (fun cell => Cell.str (pyStrOfCell (d.dtypeAt i) cell))).setDtype
          i ("object")
      else d
    let base := d.colCells i
    let newCells := cleanTextColumnCells operations base
    let changed : Int := ((base.zip newCells).filter (fun p => p.1 ≠ p.2)).length
    (d.setColCells i newCells, acc.2 + changed)
  | none => acc

/-- DataCleaner.clean_text (cleaner.py lines 186-260). -/
def DataCleaner.clean_text (c : DataCleaner) (columns : List String)
    (operations : List String) : Option String × DataCleaner :=
  let missing := columns.filter (fun col => !c.data.hasCol col)
  if missing.length > 0 then
    (some ("Columns not found: " ++ toString missing), c)
  else
    let res := columns.foldl (cleanTextStep operations) (c.data, (0 : Int))
    let op : CleaningOperation :=
      { operation_type := "clean_text",
        parameters := [("columns", toString columns), ("operations", toString operations)],
        target_columns := columns,
        description := "Applied text cleaning operations: " ++
          String.intercalate (", ") operations,
        applied := true, records_affected := res.2 }
    (none, c.recordOp op res.1)

/-- Conversion of one column by `convert_data_types`: none means an unknown
target type (warned and skipped); otherwise the new cells, the new dtype
and whether the conversion raised per-column (only the Int64 cast can: a
non-integral value makes `astype('Int64')` raise after the to_numeric
assignment already happened, so the numeric intermediate is kept). -/
def convertColumn (dt target : String) (cells : List Cell) :
    Option (List Cell × String × Bool) :=
  if target = "numeric" then
    let cs := cells.map toNumericCell
    some (cs, numericDtypeOf cs, false)
  else if target = "integer" then
    let cs := cells.map toNumericCell
    if cs.all (fun c => match c with | Cell.num q => q.den = 1 | _ => true) then
      some (cs, "Int64", false)
    else
      some (cs, numericDtypeOf cs, true)
  else if target = "float" then
    some (cells.map toNumericCell, "float64", false)
  else if target = "string" then
    some (cells.map (toStringCell dt), "string", false)
  else if target = "datetime" then
    some (cells.map toDatetimeCell, "datetime64[ns]", false)
  else if target = "category" then
    some (cells, "category", false)
  else if target = "boolean" then
    some (cells.map (toBooleanCell dt), "boolean", false)
  else none

/-- Per-column body of the `convert_data_types` loop (cleaner.py lines
269-317).  A column absent from the frame is skipped with a warning;
per-column failures are collected, never raised; a column whose dtype
changed contributes the full row count to `records_affected`.  The running
triple is (frame, records affected, per-column error list). -/
def convertStep (acc : Df × Int × List String) (ct : String × String) :
    Df × Int × List String :=
  let (d, n, errs) := acc
  match d.colIdx ct.1 with
  | none => (d, n, errs)
  | some i =>
    let origType := d.dtypeAt i
    match convertColumn origType ct.2 (d.colCells i) with
    | none => (d, n, errs)
    | some res =>
      let d2 := ((d.setColCells i res.1).setDtype i res.2.1)
      if res.2.2 then (d2, n, errs ++ [ct.1])
      else if origType ≠ res.2.1 then (d2, n + (d.rows.length : Int), errs)
      else (d2, n, errs)

/-- DataCleaner.convert_data_types (cleaner.py lines 262-339). -/
def DataCleaner.convert_data_types (c : DataCleaner)
    (type_mapping : List (String × String)) : Option String × DataCleaner :=
  let res := type_mapping.foldl convertStep (c.data, (0 : Int), ([] : List String))
  let op : CleaningOperation :=
    { operation_type := "convert_data_types",
      parameters := [("type_mapping", toString (type_mapping.map (fun p => p.1)))] ++
        (res.2.2.map (fun e => ("error", e))),
      target_columns := type_mapping.map (fun p => p.1),
      description := "Converted data types for " ++ toString type_mapping.length ++
        " columns",
      applied := true, records_affected := res.2.1 }
  (none, c.recordOp op res.1)

/-- DataCleaner.rename_columns (cleaner.py lines 341-377). -/
def DataCleaner.rename_columns (c : DataCleaner) (column_mapping : List (String × String)) :
    Option String × DataCleaner :=
  let missing := (column_mapping.map (fun p => p.1)).filter (fun col => !c.data.hasCol col)
  if missing.length > 0 then
    (some ("Source columns not found: " ++ toString missing), c)
  else
    let targets := column_mapping.map (fun p => p.2)
    if targets.length ≠ targets.dedup.length then
      (some ("Duplicate target column names detected"), c)
    else
      let names2 := c.data.colNames.map (fun col => (column_mapping.lookup col).getD col)
      let d2 := { c.data with colNames := names2 }
      let op : CleaningOperation :=
        { operation_type := "rename_columns",
          parameters := [("column_mapping", toString (column_mapping.map (fun p => p.1)))],
          target_columns := column_mapping.map (fun p => p.1),
          description := "Renamed " ++ toString column_mapping.length ++ " columns",
          applied := true, records_affected := 0 }
      (none, c.recordOp op d2)

/-- DataCleaner.reorder_columns (cleaner.py lines 379-412): named columns
move to the front in the given order, the remaining columns keep their
relative order behind them. -/
def DataCleaner.reorder_columns (c : DataCleaner) (column_order : List String) :
    Option String × DataCleaner :=
  let missing := column_order.filter (fun col => !c.data.hasCol col)
  if missing.length > 0 then
    (some ("Columns not found: " ++ toString missing), c)
  else
    let remaining := c.data.colNames.filter (fun col => !column_order.contains col)
    let final_order := column_order ++ remaining
    let idxs := final_order.filterMap c.data.colIdx
    let d2 : Df :=
      { colNames := final_order,
        dtypes := idxs.map (fun i => c.data.dtypeAt i),
        rows := c.data.rows.map (fun r => projRow idxs r) }
    let op : CleaningOperation :=
      { operation_type := "reorder_columns",
        parameters := [("column_order", toString column_order)],
        target_columns := column_order,
        description := "Reordered columns",
        applied := true, records_affected := 0 }
    (none, c.recordOp op d2)

/-- Per-column outlier predicate of the IQR method (cleaner.py lines
429-437): values outside `[Q1 - t*IQR, Q3 + t*IQR]`; null cells never
compare true; an all-null column has NaN quantiles and flags nothing. -/
def iqrFlag (cells : List Cell) (threshold : ℚ) : Cell → Bool :=
  match quantileQ (colNums cells) (1 / 4), quantileQ (colNums cells) (3 / 4) with
  | some q1, some q3 =>
    let iqr := q3 - q1
    fun c =>
      match c with
      | Cell.num v =>
        decide (v < q1 - threshold * iqr) || decide (v > q3 + threshold * iqr)
      | _ => false
  | _, _ => fun _ => false

/-- Per-column outlier predicate of the z-score method (cleaner.py lines
439-442): `|v - mean| / std > t` with the sample standard deviation
(ddof=1), stated multiplied out to stay in exact arithmetic:
`(v - mean)^2 * (n - 1) > t^2 * sum of squared deviations`.  With fewer
than two values the standard deviation is NaN and nothing is flagged. -/
def zscoreFlag (cells : List Cell) (threshold : ℚ) : Cell → Bool :=
  let nums := colNums cells
  match meanQ nums with
  | some mu =>
    if nums.length ≥ 2 then
      let ssq := (nums.map (fun v => (v - mu) ^ 2)).sum
      fun c =>
        match c with
        | Cell.num v =>
          decide ((v - mu) ^ 2 * ((nums.length : ℚ) - 1) > threshold ^ 2 * ssq)
        | _ => false
    else fun _ => false
  | none => fun _ => false

/-- Row filter of `remove_outliers` (cleaner.py lines 426-448): the
per-column bounds are computed from the frame before any removal, and a row
is removed when any targeted column flags it (logical OR). -/
def outlierFilteredRows (df : Df) (idxs : List Nat) (method : String)
    (threshold : ℚ) : List Row :=
  let flags := idxs.map (fun i =>
    (i, if method = "iqr" then iqrFlag (df.colCells i) threshold
        else zscoreFlag (df.colCells i) threshold))
  df.rows.filter (fun r => !(flags.any (fun p => p.2 (r.cellAt p.1))))

/-- DataCleaner.remove_outliers (cleaner.py lines 414-470): the candidate
list is silently filtered to the numeric-dtype columns present; an empty
result raises; an unknown method raises inside the per-column loop, before
any assignment to the data; a row is removed when any targeted column flags
it. -/
def DataCleaner.remove_outliers (c : DataCleaner) (columns : List String)
    (method : String) (threshold : ℚ) : Option String × DataCleaner :=
  let numeric_cols := columns.filter (fun col =>
    match c.data.colIdx col with
    | some i => isNumericDtype (c.data.dtypeAt i)
    | none => false)
  if numeric_cols.length = 0 then
    (some ("No valid numeric columns found for outlier removal"), c)
  else if !(method = "iqr" || method = "zscore") then
    (some ("Unknown outlier detection method: " ++ method), c)
  else
    let initial_count : Int := c.data.rows.length
    let idxs := numeric_cols.filterMap c.data.colIdx
    let rows2 := outlierFilteredRows c.data idxs method threshold
    let d2 := { c.data with rows := rows2 }
    let records : Int := initial_count - rows2.length
    let op : CleaningOperation :=
      { operation_type := "remove_outliers",
        parameters := [("columns", toString columns), ("method", method)],
        target_columns := numeric_cols,
        description := "Removed " ++ toString records ++ " outliers using " ++
          method ++ " method",
        applied := true, records_affected := records }
    (none, c.recordOp op d2)

/-- Column names of text dtype,
`select_dtypes(include=['object', 'string'])`. -/
def Df.textCols (df : Df) : List String :=
  (df.colNames.enum.filter (fun p => isTextDtype (df.dtypeAt p.1))).map (fun p => p.2)

/-- Per-column body of the `standardize_formats` loop (cleaner.py lines
731-782): a column absent from the frame is skipped with a warning; the
per-column change count compares the string renderings before and after,
as the source does with `astype(str)`. -/
def standardizeStep (acc : Df × Int) (cr : String × FormatRule) : Df × Int :=
  let (d, n) := acc
  match d.colIdx cr.1 with
  | none => (d, n)
  | some i =>
    let dt := d.dtypeAt i
    let base := d.colCells i
    let newCells := base.map (applyFormatRule dt cr.2)
    let newDt := formatRuleDtype cr.2 dt
    let changed : Int := ((base.zip newCells).filter (fun p =>
      pyStrOfCell dt p.1 ≠ pyStrOfCell newDt p.2)).length
    ((d.setColCells i newCells).setDtype i newDt, n + changed)

/-- DataCleaner.standardize_formats (cleaner.py lines 725-802). -/
def DataCleaner.standardize_formats (c : DataCleaner)
    (format_rules : List (String × FormatRule)) : Option String × DataCleaner :=
  let res := format_rules.foldl standardizeStep (c.data, (0 : Int))
  let op : CleaningOperation :=
    { operation_type := "standardize_formats",
      parameters := [("format_rules", toString (format_rules.map (fun p => p.1)))],
      target_columns := format_rules.map (fun p => p.1),
      description := "Standardized formats for " ++ toString format_rules.length ++
        " columns",
      applied := true, records_affected := res.2 }
  (none, c.recordOp op res.1)

/-- Per-column body of the `detect_and_fix_encoding_issues` loop
(cleaner.py lines 814-845): skips missing columns, applies the substitution
table and the printable-ASCII filter (which converts the whole column to
strings, nulls becoming the string nan). -/
def fixEncodingStep (acc : Df × Int) (col : String) : Df × Int :=
  let (d, n) := acc
  match d.colIdx col with
  | none => (d, n)
  | some i =>
    let dt := d.dtypeAt i
    let base := d.colCells i
    let newCells := base.map (fixEncodingCell dt)
    let changed : Int := ((base.zip newCells).filter (fun p =>
      pyStrOfCell dt p.1 ≠ pyStrOfCell ("object") p.2)).length
    ((d.setColCells i newCells).setDtype i ("object"), n + changed)

/-- DataCleaner.detect_and_fix_encoding_issues (cleaner.py lines 804-869):
defaults to every text-dtype column. -/
def DataCleaner.detect_and_fix_encoding_issues (c : DataCleaner)
    (columns : Option (List String)) : Option String × DataCleaner :=
  let cols := columns.getD c.data.textCols
  let res := cols.foldl fixEncodingStep (c.data, (0 : Int))
  let op : CleaningOperation :=
    { operation_type := "fix_encoding_issues",
      parameters := [("columns", toString cols)],
      target_columns := cols,
      description := "Fixed encoding issues in " ++ toString cols.length ++ " columns",
      applied := true, records_affected := res.2 }
  (none, c.recordOp op res.1)

/-- DataCleaner.undo_last_operation (cleaner.py lines 543-566): guarded by
`can_undo`, then the cursor is decremented and the data replaced by
`get_current_data()` of the new cursor. -/
def DataCleaner.undo_last_operation (c : DataCleaner) : Option String × DataCleaner :=
  if c.cleaning_history.can_undo then
    let h := { c.cleaning_history with current_index := c.cleaning_history.current_index - 1 }
    (none, { c with cleaning_history := h, data := h.get_current_data })
  else
    (some ("No operations to undo"), c)

/-- DataCleaner.redo_last_operation (cleaner.py lines 568-591): guarded by
`can_redo`, then the cursor is incremented and the data replaced by
`get_current_data()` of the new cursor. -/
def DataCleaner.redo_last_operation (c : DataCleaner) : Option String × DataCleaner :=
  if c.cleaning_history.can_redo then
    let h := { c.cleaning_history with current_index := c.cleaning_history.current_index + 1 }
    (none, { c with cleaning_history := h, data := h.get_current_data })
  else
    (some ("No operations to redo"), c)

/-- Operation recorded by reset_to_original (cleaner.py lines 600-608). -/
def resetOp : CleaningOperation :=
  { operation_type := "reset_to_original", parameters := [], target_columns := [],
    description := "Reset to original dataset state", applied := false,
    records_affected := 0 }

/-- DataCleaner.reset_to_original (cleaner.py lines 593-616): the data
returns to the original copy and the history is replaced wholesale by a
fresh one seeded with the original snapshot. -/
def DataCleaner.reset_to_original (c : DataCleaner) : DataCleaner :=
  { c with data := c.original_data,
           cleaning_history := CleaningHistory.new.add_operation resetOp c.original_data }

/-!
Session steps: the calls a caller can make against a cleaning session.
`TransformCall` enumerates the transform-library methods with their typed
parameters; `SessionStep` adds undo, redo and reset.  `stepRun` performs a
step: a call that raises leaves the session exactly as the method returned
it (for the Python object, its state at the moment the exception escaped).
-/

inductive TransformCall where
  | removeDuplicates (strategy : String) (subset : Option (List String)) : TransformCall
  | handleMissing (strategy : String) (columns : Option (List String))
      (fill_value : Option Cell) : TransformCall
  | cleanText (columns : List String) (operations : List String) : TransformCall
  | convertTypes (type_mapping : List (String × String)) : TransformCall
  | renameColumns (column_mapping : List (String × String)) : TransformCall
  | reorderColumns (column_order : List String) : TransformCall
  | removeOutliers (columns : List String) (method : String) (threshold : ℚ) : TransformCall
  | standardizeFormats (format_rules : List (String × FormatRule)) : TransformCall
  | fixEncoding (columns : Option (List String)) : TransformCall

/-- Dispatch of one transform-library call. -/
def DataCleaner.applyCall (c : DataCleaner) : TransformCall → Option String × DataCleaner
  | TransformCall.removeDuplicates strategy subset => c.remove_duplicates strategy subset
  | TransformCall.handleMissing strategy columns fv => c.handle_missing_values strategy columns fv
  | TransformCall.cleanText columns operations => c.clean_text columns operations
  | TransformCall.convertTypes m => c.convert_data_types m
  | TransformCall.renameColumns m => c.rename_columns m
  | TransformCall.reorderColumns o => c.reorder_columns o
  | TransformCall.removeOutliers cols method threshold => c.remove_outliers cols method threshold
  | TransformCall.standardizeFormats rules => c.standardize_formats rules
  | TransformCall.fixEncoding columns => c.detect_and_fix_encoding_issues columns

inductive SessionStep where
  | call (t : TransformCall) : SessionStep
  | undo : SessionStep
  | redo : SessionStep
  | reset : SessionStep

/-- State of the session after one step (the possibly raised exception is
only surfaced to the caller; the session keeps the state the method left). -/
def DataCleaner.stepRun (c : DataCleaner) : SessionStep → DataCleaner
  | SessionStep.call t => (c.applyCall t).2
  | SessionStep.undo => c.undo_last_operation.2
  | SessionStep.redo => c.redo_last_operation.2
  | SessionStep.reset => c.reset_to_original

/-- State of the session after a sequence of steps. -/
def DataCleaner.runSteps (c : DataCleaner) (steps : List SessionStep) : DataCleaner :=
  steps.foldl DataCleaner.stepRun c

/-!
Concrete fixtures: the §8 scenario frame of the specification (columns id
and val, four rows, a null in val), the two-value text column of the
clean-text scenario, and a minimal one-cell frame.
-/

def dfScenario : Df :=
  { colNames := ["id", "val"], dtypes := ["int64", "object"],
    rows := [[Cell.num 1, Cell.str ("a".toList)],
             [Cell.num 2, Cell.str ("b".toList)],
             [Cell.num 2, Cell.str ("b".toList)],
             [Cell.num 3, Cell.null]] }

def dfText : Df :=
  { colNames := ["t"], dtypes := ["object"],
    rows := [[Cell.str ("  HELLO  ".toList)], [Cell.str ("World!!".toList)]] }

def dfOne : Df :=
  { colNames := ["id"], dtypes := ["int64"], rows := [[Cell.num 1]] }

/-- A transform step that always succeeds: full-row keep-first dedup. -/
def dedupStep : SessionStep :=
  SessionStep.call (TransformCall.removeDuplicates ("first") none)

/-- Step sequence of the history-bound counterexample: with the initial
snapshot this appends 21 operations (evicting once), undoes once, and
appends again — 22 appends in total, more than max_retained = 20. -/
def boundBreakSteps : List SessionStep :=
  List.replicate 20 dedupStep ++ [SessionStep.undo, dedupStep]

/-- Session of the history-bound counterexample. -/
def boundBreakSession : DataCleaner :=
  (DataCleaner.init dfOne).runSteps boundBreakSteps

/-- Session whose ledger cursor is zero: one undo from a fresh session. -/
def sessionAtBottom : DataCleaner :=
  ((DataCleaner.init dfOne).undo_last_operation).2

/-- Ledger with a given retention bound and nothing recorded. -/
def emptyHistoryWithMax (m : Nat) : CleaningHistory :=
  { operations := [], data_snapshots := [], current_index := 0, max_snapshots := m }

/-- Ledger after a plain sequence of appends (no undo/redo interleaved)
starting from an empty ledger with retention bound m. -/
def pureAppend (m : Nat) (pairs : List (CleaningOperation × Df)) : CleaningHistory :=
  pairs.foldl (fun h p => h.add_operation p.1 p.2) (emptyHistoryWithMax m)

/-- Ledger shape maintained by every session: the cursor never exceeds the
operation count, the snapshot count never exceeds the retention bound, at
least one operation is recorded, and the bound is the dataclass default 20. -/
def histInv (h : CleaningHistory) : Prop :=
  h.current_index ≤ h.operations.length ∧
    h.data_snapshots.length ≤ h.max_snapshots ∧
    1 ≤ h.operations.length ∧
    h.max_snapshots = 20

/-- Operation record produced by a successful
`remove_duplicates("first", subset=None)` call on a frame (the expression
the method records, named for reuse in statements). -/
def removeDupFirstOp (df : Df) : CleaningOperation :=
  { operation_type := "remove_duplicates",
    parameters := [("strategy", "first"), ("subset", toString ([] : List String))],
    target_columns := df.colNames,
    description := "Removed " ++
      toString ((df.rows.length : Int) - ((dropDuplicatesRows df none ("first")).length : Int)) ++
      " duplicate records using " ++ "first" ++ " strategy",
    applied := true,
    records_affected :=
      (df.rows.length : Int) - ((dropDuplicatesRows df none ("first")).length : Int) }

/-- Session after the keep-first dedup of the §8 scenario. -/
def scenarioSession : DataCleaner :=
  ((DataCleaner.init dfScenario).remove_duplicates ("first") none).2

/-- Scenario session after dropping the rows with a null val. -/
def scenarioAfterDrop : DataCleaner :=
  (scenarioSession.handle_missing_values ("drop") (some ["val"]) none).2

/-- Scenario session after one undo. -/
def scenarioAfterUndo : DataCleaner :=
  scenarioAfterDrop.undo_last_operation.2

/-- Session after one transform, one undo and one redo. -/
def roundTripSession : DataCleaner :=
  (DataCleaner.init dfScenario).runSteps [dedupStep, SessionStep.undo, SessionStep.redo]

/-- Session after one transform, one undo and a second transform (the
append-while-cursor-behind path of add_operation). -/
def branchSession : DataCleaner :=
  (DataCleaner.init dfScenario).runSteps [dedupStep, SessionStep.undo, dedupStep]

/-- Session after the clean-text scenario of §8. -/
def textSession : DataCleaner :=
  ((DataCleaner.init dfText).clean_text ["t"]
    ["remove_extra_spaces", "lowercase", "remove_special_chars"]).2

/-- Whitespace-normal form: every whitespace character is a plain space and
no two whitespace characters are adjacent (the shape `collapseWS` leaves
behind). -/
def wsClean (l : List Char) : Prop :=
  (∀ c ∈ l, isWS c = true → c = ' ') ∧
    l.Chain' (fun a b => ¬(isWS a = true ∧ isWS b = true))
/-! Whitespace normal-form lemmas. -/

theorem wsClean_nil : wsClean [] := by
  constructor
  · intro c hc
    simp at hc
  · simp

theorem wsClean_cons_space (t : List Char) (h : wsClean t)
    (hhead : ∀ b ∈ t.head?, ¬ isWS b = true) : wsClean (' ' :: t) := by
  constructor
  · intro x hx hxws
    rcases List.mem_cons.mp hx with h1 | h2
    · exact h1
    · exact h.1 x h2 hxws
  · rw [List.chain'_cons']
    exact ⟨fun b hb hcon => hhead b hb hcon.2, h.2⟩

theorem wsClean_cons_nonws (c : Char) (t : List Char) (h : wsClean t)
    (hc : ¬ isWS c = true) : wsClean (c :: t) := by
  constructor
  · intro x hx hxws
    rcases List.mem_cons.mp hx with h1 | h2
    · subst h1
      exact absurd hxws hc
    · exact h.1 x h2 hxws
  · rw [List.chain'_cons']
    exact ⟨fun b _ hcon => hc hcon.1, h.2⟩

theorem wsClean_collapseWS (l : List Char) : wsClean (collapseWS l) := by
  induction l with
  | nil => exact wsClean_nil
  | cons c cs ih =>
    simp only [collapseWS]
    by_cases hws : isWS c = true
    · rw [if_pos hws]
      split
      · exact ih
      · rename_i hne
        refine wsClean_cons_space (collapseWS cs) ih ?_
        intro b hb hbws
        have hb2 : b = ' ' := ih.1 b (List.mem_of_mem_head? hb) hbws
        subst hb2
        rcases hr : collapseWS cs with _ | ⟨d, t⟩
        · rw [hr] at hb
          simp at hb
        · rw [hr] at hb
          simp only [List.head?_cons, Option.mem_def, Option.some.injEq] at hb
          exact hne t (by rw [hr, hb])
    · rw [if_neg hws]
      exact wsClean_cons_nonws c (collapseWS cs) ih hws

theorem wsClean_tail (c : Char) (t : List Char) (h : wsClean (c :: t)) : wsClean t :=
  ⟨fun x hx hxws => h.1 x (List.mem_cons.mpr (Or.inr hx)) hxws, h.2.tail⟩

theorem collapseWS_eq_self (l : List Char) (h : wsClean l) : collapseWS l = l := by
  induction l with
  | nil => rfl
  | cons c cs ih =>
    have htail := wsClean_tail c cs h
    simp only [collapseWS, ih htail]
    by_cases hws : isWS c = true
    · have hc : c = ' ' := h.1 c (by simp) hws
      subst hc
      rw [if_pos hws]
      split
      · exfalso
        have := h.2
        rw [List.chain'_cons] at this
        exact this.1 ⟨hws, by simp [isWS]⟩
      · rfl
    · rw [if_neg hws]

theorem dropWhile_dropWhile (p : Char → Bool) (l : List Char) :
    (l.dropWhile p).dropWhile p = l.dropWhile p := by
  induction l with
  | nil => rfl
  | cons c cs ih =>
    by_cases h : p c
    · simp [List.dropWhile_cons, h, ih]
    · simp [List.dropWhile_cons, h]

theorem dropWhile_head_not (p : Char → Bool) (l : List Char) :
    ∀ a, (l.dropWhile p).head? = some a → p a = false := by
  intro a ha
  have h := List.head?_dropWhile_not p l
  rw [ha] at h
  exact h

theorem dropWhile_eq_self_of_head (p : Char → Bool) (l : List Char)
    (h : ∀ a, l.head? = some a → p a = false) : l.dropWhile p = l := by
  cases l with
  | nil => rfl
  | cons c cs => simp [List.dropWhile_cons, h c rfl]

theorem stripWS_idem (l : List Char) : stripWS (stripWS l) = stripWS l := by
  unfold stripWS
  have h1 : ((l.dropWhile isWS).reverse.dropWhile isWS).reverse.dropWhile isWS =
      ((l.dropWhile isWS).reverse.dropWhile isWS).reverse := by
    apply dropWhile_eq_self_of_head
    intro a ha
    rw [List.head?_reverse] at ha
    rcases List.dropWhile_suffix (l := (l.dropWhile isWS).reverse) isWS with ⟨t, ht⟩
    rcases hC : (l.dropWhile isWS).reverse.dropWhile isWS with _ | ⟨d, u⟩
    · rw [hC] at ha
      simp at ha
    · have hne : (l.dropWhile isWS).reverse.dropWhile isWS ≠ [] := by
        rw [hC]
        simp
      have h2 : ((l.dropWhile isWS).reverse.dropWhile isWS).getLast? =
          (l.dropWhile isWS).reverse.getLast? := by
        conv_rhs => rw [← ht]
        rw [List.getLast?_append_of_ne_nil t hne]
      rw [h2, List.getLast?_reverse] at ha
      exact dropWhile_head_not isWS l a ha
  rw [h1, List.reverse_reverse, dropWhile_dropWhile]

theorem wsClean_dropWhile (p : Char → Bool) (l : List Char) (h : wsClean l) :
    wsClean (l.dropWhile p) := by
  refine ⟨fun x hx hxws => h.1 x ((List.dropWhile_sublist p).subset hx) hxws, ?_⟩
  exact h.2.suffix (List.dropWhile_suffix p)

theorem wsClean_reverse (l : List Char) (h : wsClean l) : wsClean l.reverse := by
  refine ⟨fun x hx hxws => h.1 x (List.mem_reverse.mp hx) hxws, ?_⟩
  rw [List.chain'_reverse]
  exact h.2.imp (fun a b hab hcon => hab ⟨hcon.2, hcon.1⟩)

theorem wsClean_stripWS (l : List Char) (h : wsClean l) : wsClean (stripWS l) := by
  unfold stripWS
  exact wsClean_reverse _ (wsClean_dropWhile _ _ (wsClean_reverse _ (wsClean_dropWhile _ _ h)))

theorem collapseTrim_idem (l : List Char) : collapseTrim (collapseTrim l) = collapseTrim l := by
  unfold collapseTrim
  rw [collapseWS_eq_self _ (wsClean_stripWS _ (wsClean_collapseWS l)), stripWS_idem]

theorem cleanupWSCell_idem (c : Cell) : cleanupWSCell (cleanupWSCell c) = cleanupWSCell c := by
  cases c <;> simp [cleanupWSCell, collapseTrim_idem]

/-! Keep-first deduplication lemmas. -/

theorem keys_dropDupByKeyAux {κ : Type} [DecidableEq κ] (key : Row → κ) (l : List Row) :
    ∀ (seen : List κ) (x : Row), x ∈ dropDupByKeyAux key seen l → key x ∉ seen := by
  induction l with
  | nil =>
    intro seen x hx
    simp [dropDupByKeyAux] at hx
  | cons r rs ih =>
    intro seen x hx
    by_cases hmem : key r ∈ seen
    · rw [dropDupByKeyAux, if_pos hmem] at hx
      exact ih seen x hx
    · rw [dropDupByKeyAux, if_neg hmem] at hx
      rcases List.mem_cons.mp hx with h1 | h2
      · subst h1
        exact hmem
      · have := ih (key r :: seen) x h2
        exact fun hs => this (List.mem_cons.mpr (Or.inr hs))

theorem pairwise_dropDupByKeyAux {κ : Type} [DecidableEq κ] (key : Row → κ) (l : List Row) :
    ∀ seen : List κ,
      (dropDupByKeyAux key seen l).Pairwise (fun a b => key a ≠ key b) := by
  induction l with
  | nil =>
    intro seen
    simp [dropDupByKeyAux]
  | cons r rs ih =>
    intro seen
    by_cases hmem : key r ∈ seen
    · rw [dropDupByKeyAux, if_pos hmem]
      exact ih seen
    · rw [dropDupByKeyAux, if_neg hmem]
      refine List.pairwise_cons.mpr ⟨?_, ih (key r :: seen)⟩
      intro b hb
      have := keys_dropDupByKeyAux key rs (key r :: seen) b hb
      exact fun he => this (by rw [← he]; exact List.mem_cons_self _ _)

theorem dropDupByKeyAux_eq_self {κ : Type} [DecidableEq κ] (key : Row → κ) (l : List Row) :
    ∀ seen : List κ, l.Pairwise (fun a b => key a ≠ key b) →
      (∀ x ∈ l, key x ∉ seen) → dropDupByKeyAux key seen l = l := by
  induction l with
  | nil =>
    intro seen _ _
    rfl
  | cons r rs ih =>
    intro seen hpw hseen
    have hmem : key r ∉ seen := hseen r (List.mem_cons_self r rs)
    rw [dropDupByKeyAux, if_neg hmem]
    congr 1
    refine ih (key r :: seen) (List.pairwise_cons.mp hpw).2 ?_
    intro x hx
    intro hin
    rcases List.mem_cons.mp hin with h1 | h2
    · exact (List.pairwise_cons.mp hpw).1 x hx h1.symm
    · exact hseen x (List.mem_cons.mpr (Or.inr hx)) h2

theorem dropDupByKey_idem {κ : Type} [DecidableEq κ] (key : Row → κ) (l : List Row) :
    dropDupByKey key (dropDupByKey key l) = dropDupByKey key l :=
  dropDupByKeyAux_eq_self key _ [] (pairwise_dropDupByKeyAux key l [])
    (fun x _ => by simp)


/-! Session structure lemmas. -/

theorem recordOp_original (c : DataCleaner) (op : CleaningOperation) (d2 : Df) :
    (c.recordOp op d2).original_data = c.original_data := rfl

theorem applyCall_shape (c : DataCleaner) (t : TransformCall) :
    (c.applyCall t).2 = c ∨ ∃ op d2, (c.applyCall t).2 = c.recordOp op d2 := by
  cases t with
  | removeDuplicates strategy subset =>
    simp only [DataCleaner.applyCall, DataCleaner.remove_duplicates]
    repeat' split
    all_goals first
      | exact Or.inl rfl
      | exact Or.inr ⟨_, _, rfl⟩
  | handleMissing strategy columns fv =>
    simp only [DataCleaner.applyCall, DataCleaner.handle_missing_values]
    repeat' split
    all_goals first
      | exact Or.inl rfl
      | exact Or.inr ⟨_, _, rfl⟩
  | cleanText columns operations =>
    simp only [DataCleaner.applyCall, DataCleaner.clean_text]
    repeat' split
    all_goals first
      | exact Or.inl rfl
      | exact Or.inr ⟨_, _, rfl⟩
  | convertTypes m =>
    exact Or.inr ⟨_, _, rfl⟩
  | renameColumns m =>
    simp only [DataCleaner.applyCall, DataCleaner.rename_columns]
    repeat' split
    all_goals first
      | exact Or.inl rfl
      | exact Or.inr ⟨_, _, rfl⟩
  | reorderColumns o =>
    simp only [DataCleaner.applyCall, DataCleaner.reorder_columns]
    repeat' split
    all_goals first
      | exact Or.inl rfl
      | exact Or.inr ⟨_, _, rfl⟩
  | removeOutliers cols method threshold =>
    simp only [DataCleaner.applyCall, DataCleaner.remove_outliers]
    repeat' split
    all_goals first
      | exact Or.inl rfl
      | exact Or.inr ⟨_, _, rfl⟩
  | standardizeFormats rules =>
    exact Or.inr ⟨_, _, rfl⟩
  | fixEncoding columns =>
    exact Or.inr ⟨_, _, rfl⟩

theorem stepRun_original (c : DataCleaner) (s : SessionStep) :
    (c.stepRun s).original_data = c.original_data := by
  cases s with
  | call t =>
    rcases applyCall_shape c t with h | ⟨op, d2, h⟩
    · rw [DataCleaner.stepRun, h]
    · rw [DataCleaner.stepRun, h, recordOp_original]
  | undo =>
    show c.undo_last_operation.2.original_data = c.original_data
    unfold DataCleaner.undo_last_operation
    split <;> rfl
  | redo =>
    show c.redo_last_operation.2.original_data = c.original_data
    unfold DataCleaner.redo_last_operation
    split <;> rfl
  | reset => rfl

theorem runSteps_original (c : DataCleaner) (steps : List SessionStep) :
    (c.runSteps steps).original_data = c.original_data := by
  induction steps generalizing c with
  | nil => rfl
  | cons s ss ih =>
    show ((c.stepRun s).runSteps ss).original_data = c.original_data
    rw [ih, stepRun_original]

/-! History invariant lemmas. -/

theorem add_operation_current_eq (h : CleaningHistory) (op : CleaningOperation) (d : Df) :
    (h.add_operation op d).current_index = (h.add_operation op d).operations.length := by
  unfold CleaningHistory.add_operation
  split <;> dsimp only <;> split <;> simp

theorem histInv_add (h : CleaningHistory) (hi : histInv h) (op : CleaningOperation)
    (d : Df) : histInv (h.add_operation op d) := by
  obtain ⟨hci, hsn, hop, hmax⟩ := hi
  refine ⟨le_of_eq (add_operation_current_eq h op d), ?_, ?_, ?_⟩
  all_goals unfold CleaningHistory.add_operation
  all_goals split <;> dsimp only <;> split <;> simp_all [List.length_take] <;> omega

theorem histInv_init (d : Df) : histInv (DataCleaner.init d).cleaning_history := by
  refine ⟨?_, ?_, ?_, ?_⟩ <;>
    simp [DataCleaner.init, CleaningHistory.new, CleaningHistory.add_operation]

theorem histInv_stepRun (c : DataCleaner) (hi : histInv c.cleaning_history)
    (s : SessionStep) : histInv (c.stepRun s).cleaning_history := by
  cases s with
  | call t =>
    rcases applyCall_shape c t with h | ⟨op, d2, h⟩
    · rw [DataCleaner.stepRun, h]
      exact hi
    · rw [DataCleaner.stepRun, h]
      exact histInv_add _ hi op d2
  | undo =>
    show histInv c.undo_last_operation.2.cleaning_history
    unfold DataCleaner.undo_last_operation
    split
    · obtain ⟨hci, hsn, hop, hmax⟩ := hi
      exact ⟨by dsimp only; omega, hsn, hop, hmax⟩
    · exact hi
  | redo =>
    show histInv c.redo_last_operation.2.cleaning_history
    unfold DataCleaner.redo_last_operation
    split
    · rename_i hcan
      have hlt : c.cleaning_history.current_index < c.cleaning_history.operations.length :=
        of_decide_eq_true hcan
      obtain ⟨hci, hsn, hop, hmax⟩ := hi
      exact ⟨by dsimp only; omega, hsn, hop, hmax⟩
    · exact hi
  | reset =>
    show histInv (CleaningHistory.new.add_operation resetOp c.original_data)
    refine ⟨?_, ?_, ?_, ?_⟩ <;>
      simp [CleaningHistory.new, CleaningHistory.add_operation]

theorem histInv_runSteps (c : DataCleaner) (hi : histInv c.cleaning_history)
    (steps : List SessionStep) : histInv (c.runSteps steps).cleaning_history := by
  induction steps generalizing c with
  | nil => exact hi
  | cons s ss ih =>
    show histInv ((c.stepRun s).runSteps ss).cleaning_history
    exact ih _ (histInv_stepRun c hi s)

theorem add_operation_pure (m : Nat) (h : CleaningHistory)
    (hinv : h.current_index = h.operations.length ∧
      h.data_snapshots.length = h.operations.length ∧
      h.operations.length ≤ m ∧ h.max_snapshots = m)
    (op : CleaningOperation) (d : Df) :
    ((h.add_operation op d).current_index = (h.add_operation op d).operations.length ∧
      (h.add_operation op d).data_snapshots.length = (h.add_operation op d).operations.length ∧
      (h.add_operation op d).operations.length ≤ m ∧
      (h.add_operation op d).max_snapshots = m) ∧
    (h.add_operation op d).operations.length = min (h.operations.length + 1) m := by
  obtain ⟨h1, h2, h3, h4⟩ := hinv
  unfold CleaningHistory.add_operation
  split
  · exfalso
    omega
  · dsimp only
    split
    · refine ⟨⟨?_, ?_, ?_, ?_⟩, ?_⟩ <;> simp_all <;> omega
    · refine ⟨⟨?_, ?_, ?_, ?_⟩, ?_⟩ <;> simp_all <;> omega

theorem pureAppend_foldl_len (m : Nat) (pairs : List (CleaningOperation × Df)) :
    ∀ h : CleaningHistory,
      (h.current_index = h.operations.length ∧
        h.data_snapshots.length = h.operations.length ∧
        h.operations.length ≤ m ∧ h.max_snapshots = m) →
      (pairs.foldl (fun h p => h.add_operation p.1 p.2) h).operations.length =
        min (h.operations.length + pairs.length) m := by
  induction pairs with
  | nil =>
    intro h hinv
    simp
    omega
  | cons p ps ih =>
    intro h hinv
    obtain ⟨hinv2, hlen⟩ := add_operation_pure m h hinv p.1 p.2
    show (ps.foldl (fun h p => h.add_operation p.1 p.2) (h.add_operation p.1 p.2)).operations.length = _
    rw [ih _ hinv2, hlen]
    simp only [List.length_cons]
    omega

theorem add_operation_getLast (h : CleaningHistory) (hi : histInv h)
    (op : CleaningOperation) (d : Df) :
    (h.add_operation op d).operations.getLast? = some op := by
  obtain ⟨hci, hsn, hop, hmax⟩ := hi
  unfold CleaningHistory.add_operation
  split
  · rename_i hlt
    dsimp only
    split
    · rename_i hevict
      simp only [List.length_append, List.length_take, List.length_cons,
        List.length_nil] at hevict
      have h19 : 1 ≤ (h.operations.take h.current_index).length := by
        simp only [List.length_take]
        omega
      rw [List.drop_append_of_le_length h19, List.getLast?_concat]
    · rw [List.getLast?_concat]
  · rename_i hnlt
    dsimp only
    split
    · rename_i hevict
      have h1 : 1 ≤ h.operations.length := hop
      rw [List.drop_append_of_le_length h1, List.getLast?_concat]
    · rw [List.getLast?_concat]

theorem remove_duplicates_first_data (c : DataCleaner) :
    (c.remove_duplicates ("first") none).2.data =
      { c.data with rows := dropDupByKey (fun r => r) c.data.rows } := rfl

theorem remove_duplicates_first_hist (c : DataCleaner) :
    (c.remove_duplicates ("first") none).2.cleaning_history =
      c.cleaning_history.add_operation (removeDupFirstOp c.data)
        { c.data with rows := dropDupByKey (fun r => r) c.data.rows } := rfl

theorem dropDuplicatesRows_first (df : Df) :
    dropDuplicatesRows df none ("first") = dropDupByKey (fun r => r) df.rows := rfl

/-- C8: applying Deduplicate(strategy=first, no subset) twice in a row, in
any reachable session, yields the same Dataset as applying it once, and the
second application records recordsAffected = 0. -/
theorem dedup_first_idempotent (d : Df) (steps : List SessionStep) :
    ((((DataCleaner.init d).runSteps steps).remove_duplicates ("first") none).2.remove_duplicates
        ("first") none).2.data =
      (((DataCleaner.init d).runSteps steps).remove_duplicates ("first") none).2.data ∧
    ((((DataCleaner.init d).runSteps steps).remove_duplicates ("first") none).2.remove_duplicates
        ("first") none).2.cleaning_history.operations.getLast?.map
        (fun o => o.records_affected) = some 0 := by
  set c := (DataCleaner.init d).runSteps steps with hc
  have hinv : histInv c.cleaning_history := histInv_runSteps _ (histInv_init d) steps
  have hinv1 : histInv (c.remove_duplicates ("first") none).2.cleaning_history := by
    rw [remove_duplicates_first_hist]
    exact histInv_add _ hinv _ _
  have hidem := dropDupByKey_idem (fun r : Row => r) c.data.rows
  have hdata1 := remove_duplicates_first_data c
  constructor
  · rw [remove_duplicates_first_data ((c.remove_duplicates ("first") none).2), hdata1]
    simp [hidem]
  · rw [remove_duplicates_first_hist ((c.remove_duplicates ("first") none).2),
      add_operation_getLast _ hinv1]
    simp only [Option.map_some', removeDupFirstOp, dropDuplicatesRows_first, hdata1, hidem]
    simp

/-- C5: after any sequence of transforms, undos and redos,
reset_to_original followed by reading the current dataset returns the
Dataset captured at session construction. -/
theorem reset_returns_original (d : Df) (steps : List SessionStep) :
    (((DataCleaner.init d).runSteps steps).reset_to_original).data = d := by
  show ((DataCleaner.init d).runSteps steps).original_data = d
  rw [runSteps_original]
  rfl

/-- C10: a fresh session already reports undo availability (the synthetic
initial_state entry set the cursor to 1) and undoing on it succeeds,
leaving the current Dataset equal to the original input. -/
theorem fresh_session_undo_succeeds (d : Df) :
    (DataCleaner.init d).cleaning_history.can_undo = true ∧
    (DataCleaner.init d).undo_last_operation.1 = none ∧
    (DataCleaner.init d).undo_last_operation.2.data = d :=
  ⟨rfl, rfl, rfl⟩

/-- C9: every transform-library call that raises, and every undo/redo that
raises, leaves the session (current Dataset and History Ledger) exactly as
it was before the call. -/
theorem failed_calls_leave_session_unchanged (c : DataCleaner) (t : TransformCall) :
    ((c.applyCall t).1.isSome → (c.applyCall t).2 = c) ∧
    (c.undo_last_operation.1.isSome → c.undo_last_operation.2 = c) ∧
    (c.redo_last_operation.1.isSome → c.redo_last_operation.2 = c) := by
  refine ⟨?_, ?_, ?_⟩
  · cases t with
    | removeDuplicates strategy subset =>
      simp only [DataCleaner.applyCall, DataCleaner.remove_duplicates]
      repeat' split
      all_goals first | (intro _; rfl) | simp
    | handleMissing strategy columns fv =>
      simp only [DataCleaner.applyCall, DataCleaner.handle_missing_values]
      repeat' split
      all_goals first | (intro _; rfl) | simp
    | cleanText columns operations =>
      simp only [DataCleaner.applyCall, DataCleaner.clean_text]
      repeat' split
      all_goals first | (intro _; rfl) | simp
    | convertTypes m =>
      simp [DataCleaner.applyCall, DataCleaner.convert_data_types]
    | renameColumns m =>
      simp only [DataCleaner.applyCall, DataCleaner.rename_columns]
      repeat' split
      all_goals first | (intro _; rfl) | simp
    | reorderColumns o =>
      simp only [DataCleaner.applyCall, DataCleaner.reorder_columns]
      repeat' split
      all_goals first | (intro _; rfl) | simp
    | removeOutliers cols method threshold =>
      simp only [DataCleaner.applyCall, DataCleaner.remove_outliers]
      repeat' split
      all_goals first | (intro _; rfl) | simp
    | standardizeFormats rules =>
      simp [DataCleaner.applyCall, DataCleaner.standardize_formats]
    | fixEncoding columns =>
      simp [DataCleaner.applyCall, DataCleaner.detect_and_fix_encoding_issues]
  · unfold DataCleaner.undo_last_operation
    split
    · simp
    · intro _
      rfl
  · unfold DataCleaner.redo_last_operation
    split
    · simp
    · intro _
      rfl

theorem failed_calls_leave_session_unchanged_witness :
    (((DataCleaner.init dfScenario).applyCall
        (TransformCall.handleMissing ("drop") (some ["zzz"]) none)).1.isSome = true ∧
      ((DataCleaner.init dfScenario).applyCall
        (TransformCall.handleMissing ("drop") (some ["zzz"]) none)).2 =
        DataCleaner.init dfScenario) ∧
    (sessionAtBottom.undo_last_operation.1.isSome = true ∧
      sessionAtBottom.undo_last_operation.2 = sessionAtBottom) :=
  ⟨⟨by decide,
    (failed_calls_leave_session_unchanged (DataCleaner.init dfScenario)
      (TransformCall.handleMissing ("drop") (some ["zzz"]) none)).1 (by decide)⟩,
   ⟨by decide,
    (failed_calls_leave_session_unchanged sessionAtBottom
      (TransformCall.convertTypes [])).2.1 (by decide)⟩⟩

/-- C6 counterexample: a Convert Types call and a Standardize Formats call
whose parameters reference a column absent from the Dataset return without
any InvalidArgument error, contradicting the claim that every transform
fails on unknown columns. -/
theorem unknown_column_does_not_fail_conversion :
    ((DataCleaner.init dfScenario).convert_data_types [("zzz", "integer")]).1 = none ∧
    ((DataCleaner.init dfScenario).standardize_formats [("zzz", FormatRule.email)]).1 = none :=
  ⟨rfl, rfl⟩

/-- C6 amended: Handle Missing, Clean Text, Rename Columns and Reorder
Columns fail with InvalidArgument when their parameters reference an
unknown column, but Convert Types and Standardize Formats skip unknown
columns with a warning and never raise. -/
theorem unknown_column_error_policy :
    (∀ (c : DataCleaner) (strategy : String) (cols : List String) (fv : Option Cell)
        (col : String), col ∈ cols → c.data.hasCol col = false →
        (c.handle_missing_values strategy (some cols) fv).1.isSome) ∧
    (∀ (c : DataCleaner) (cols ops : List String) (col : String),
        col ∈ cols → c.data.hasCol col = false →
        (c.clean_text cols ops).1.isSome) ∧
    (∀ (c : DataCleaner) (mapping : List (String × String)) (pr : String × String),
        pr ∈ mapping → c.data.hasCol pr.1 = false →
        (c.rename_columns mapping).1.isSome) ∧
    (∀ (c : DataCleaner) (order : List String) (col : String),
        col ∈ order → c.data.hasCol col = false →
        (c.reorder_columns order).1.isSome) ∧
    (∀ (c : DataCleaner) (m : List (String × String)),
        (c.convert_data_types m).1 = none) ∧
    (∀ (c : DataCleaner) (rules : List (String × FormatRule)),
        (c.standardize_formats rules).1 = none) := by
  refine ⟨?_, ?_, ?_, ?_, ?_, ?_⟩
  · intro c strategy cols fv col hmem hno
    have hmemf : col ∈ cols.filter (fun col => !c.data.hasCol col) :=
      List.mem_filter.mpr ⟨hmem, by simp [hno]⟩
    have hlen : (cols.filter (fun col => !c.data.hasCol col)).length > 0 :=
      List.length_pos.mpr (List.ne_nil_of_mem hmemf)
    simp only [DataCleaner.handle_missing_values, Option.getD_some]
    rw [if_pos hlen]
    simp
  · intro c cols ops col hmem hno
    have hmemf : col ∈ cols.filter (fun col => !c.data.hasCol col) :=
      List.mem_filter.mpr ⟨hmem, by simp [hno]⟩
    have hlen : (cols.filter (fun col => !c.data.hasCol col)).length > 0 :=
      List.length_pos.mpr (List.ne_nil_of_mem hmemf)
    simp only [DataCleaner.clean_text]
    rw [if_pos hlen]
    simp
  · intro c mapping pr hmem hno
    have hmemf : pr.1 ∈ (mapping.map (fun p => p.1)).filter (fun col => !c.data.hasCol col) :=
      List.mem_filter.mpr ⟨List.mem_map.mpr ⟨pr, hmem, rfl⟩, by simp [hno]⟩
    have hlen : ((mapping.map (fun p => p.1)).filter (fun col => !c.data.hasCol col)).length > 0 :=
      List.length_pos.mpr (List.ne_nil_of_mem hmemf)
    simp only [DataCleaner.rename_columns]
    rw [if_pos hlen]
    simp
  · intro c order col hmem hno
    have hmemf : col ∈ order.filter (fun col => !c.data.hasCol col) :=
      List.mem_filter.mpr ⟨hmem, by simp [hno]⟩
    have hlen : (order.filter (fun col => !c.data.hasCol col)).length > 0 :=
      List.length_pos.mpr (List.ne_nil_of_mem hmemf)
    simp only [DataCleaner.reorder_columns]
    rw [if_pos hlen]
    simp
  · intro c m
    rfl
  · intro c rules
    rfl

theorem unknown_column_error_policy_witness :
    ("zzz" ∈ ["zzz"] ∧ dfScenario.hasCol ("zzz") = false) ∧
    ((DataCleaner.init dfScenario).handle_missing_values ("drop") (some ["zzz"]) none).1.isSome =
      true ∧
    ((DataCleaner.init dfScenario).clean_text ["zzz"] ["lowercase"]).1.isSome = true ∧
    ((DataCleaner.init dfScenario).rename_columns [("zzz", "w")]).1.isSome = true ∧
    ((DataCleaner.init dfScenario).reorder_columns ["zzz"]).1.isSome = true ∧
    ((DataCleaner.init dfScenario).convert_data_types [("zzz", "integer")]).1 = none ∧
    ((DataCleaner.init dfScenario).standardize_formats [("zzz", FormatRule.email)]).1 = none :=
  ⟨⟨by decide, by decide⟩,
   unknown_column_error_policy.1 _ ("drop") _ none ("zzz") (by decide) (by decide),
   unknown_column_error_policy.2.1 _ _ ["lowercase"] ("zzz") (by decide) (by decide),
   unknown_column_error_policy.2.2.1 _ _ (("zzz", "w")) (by decide) (by decide),
   unknown_column_error_policy.2.2.2.1 _ _ ("zzz") (by decide) (by decide),
   unknown_column_error_policy.2.2.2.2.1 _ _,
   unknown_column_error_policy.2.2.2.2.2 _ _⟩

/-- C7: whenever the requested operation list contains a character-removal
operation, the column produced by clean_text is a fixed point of the
whitespace collapse-and-trim cleanup (the cleanup pass was applied even if
not requested); and on the concrete §8 text scenario the result is
hello / world. -/
theorem clean_text_trailing_cleanup :
    (∀ (operations : List String) (cells : List Cell),
        (∃ op ∈ removalOps, op ∈ operations) →
        (cleanTextColumnCells operations cells).map cleanupWSCell =
          cleanTextColumnCells operations cells) ∧
    textSession.data.rows = [[Cell.str ("hello".toList)], [Cell.str ("world".toList)]] := by
  constructor
  · intro operations cells hex
    unfold cleanTextColumnCells
    have hany : removalOps.any (fun op => operations.contains op) = true := by
      rcases hex with ⟨op, hop, hmem⟩
      rw [List.any_eq_true]
      refine ⟨op, hop, ?_⟩
      simpa using hmem
    rw [if_pos hany, List.map_map]
    apply List.map_congr_left
    intro a _
    exact cleanupWSCell_idem a
  · decide

theorem clean_text_trailing_cleanup_witness :
    (∃ op ∈ removalOps, op ∈ ["lowercase", "remove_special_chars"]) ∧
    (cleanTextColumnCells ["lowercase", "remove_special_chars"]
        [Cell.str ("  A  b!".toList)]).map cleanupWSCell =
      cleanTextColumnCells ["lowercase", "remove_special_chars"]
        [Cell.str ("  A  b!".toList)] :=
  ⟨by decide, clean_text_trailing_cleanup.1 _ _ (by decide)⟩

/-- C1 is violated by the code: after one transform, one undo and a second
transform, the ledger holds 2 operations but 3 snapshots, because
add_operation truncates operations to the cursor but snapshots to
cursor + 1 (models.py lines 487-489). -/
theorem snapshot_operation_length_diverges :
    branchSession.cleaning_history.operations.length = 2 ∧
    branchSession.cleaning_history.data_snapshots.length = 3 := by
  decide

/-- C2 is violated by the code: in the §8 scenario (dedup to 3 rows, drop
to 2 rows), one undo leaves the current Dataset at the 2-row post-drop
snapshot — get_current_data reads snapshots[cursor] instead of the
snapshots[cursor - 1] the specification prescribes — even though the 3-row
post-dedup snapshot is present at index 1. -/
theorem undo_returns_post_drop_state :
    scenarioAfterDrop.data.rows.length = 2 ∧
    scenarioAfterDrop.undo_last_operation.1 = none ∧
    scenarioAfterUndo.data.rows.length = 2 ∧
    (scenarioAfterUndo.cleaning_history.data_snapshots.getD 1 Df.empty).rows.length = 3 := by
  decide

/-- C3 is violated by the code: one transform, one undo and one redo leave
the current Dataset empty (get_current_data returns an empty frame when the
cursor equals the snapshot count), not the post-transform 3-row state. -/
theorem undo_redo_round_trip_fails :
    scenarioSession.data.rows.length = 3 ∧
    roundTripSession.data = Df.empty := by
  decide

set_option maxRecDepth 40000 in
/-- C4 counterexample: 22 appends reach the session (one initial state, 21
transforms) with a single undo before the last transform — more than
max_retained = 20 in total — yet the ledger ends with 19 operations, not
max_retained: the snapshot-truncation off-by-one makes eviction fire while
the operation list is already short. -/
theorem history_bound_violated :
    boundBreakSession.cleaning_history.max_snapshots = 20 ∧
    boundBreakSession.cleaning_history.operations.length = 19 := by
  decide

/-- C4 amended: for plain append sequences (no undo/redo interleaved) that
push the total past the retention bound, the ledger holds exactly
max_retained operations; and in every reachable session state the cursor
never exceeds the operation count. -/
theorem history_bound_amended :
    (∀ (m : Nat) (pairs : List (CleaningOperation × Df)),
        pairs.length > m → (pureAppend m pairs).operations.length = m) ∧
    (∀ (d : Df) (steps : List SessionStep),
        ((DataCleaner.init d).runSteps steps).cleaning_history.current_index ≤
          ((DataCleaner.init d).runSteps steps).cleaning_history.operations.length) := by
  constructor
  · intro m pairs hgt
    unfold pureAppend
    rw [pureAppend_foldl_len m pairs (emptyHistoryWithMax m)
      ⟨rfl, rfl, by simp [emptyHistoryWithMax], rfl⟩]
    simp only [emptyHistoryWithMax, List.length_nil]
    omega
  · intro d steps
    exact (histInv_runSteps _ (histInv_init d) steps).1

theorem history_bound_amended_witness :
    2 > 1 ∧ (pureAppend 1 [(initialStateOp, dfOne), (initialStateOp, dfOne)]).operations.length
      = 1 :=
  ⟨by decide, history_bound_amended.1 1 [(initialStateOp, dfOne), (initialStateOp, dfOne)]
    (by decide)⟩
